import Mathlib

/-!
Verification development for the Flask student-enrollment application
(`src/Lab_8/app.py`).  The SQLAlchemy tables are modelled as Lean
structures, the database as lists of rows, and each Flask route handler
that mutates state as a pure function from a database (plus its request
inputs) to an outcome together with the successor database.  Python
`float` grade values are modelled as rationals; autoincrement primary
keys are modelled as `max id + 1`.
-/

namespace Lab8

/-- Row of the `users` table (`class User` in `app.py`). -/
structure User where
  id : Nat
  username : String
  password_hash : String
  role : String
  deriving DecidableEq

/-- Row of the `courses` table (`class Course`). -/
structure Course where
  id : Nat
  name : String
  department : String
  capacity : Int
  deriving DecidableEq

/-- Row of the `enrollments` table (`class Enrollment`). -/
structure Enrollment where
  id : Nat
  user_id : Nat
  course_id : Nat
  deriving DecidableEq

/-- Row of the `grades` table (`class Grade`); `grade_value` is a Python
float, modelled as a rational. -/
structure Grade where
  id : Nat
  enrollment_id : Nat
  grade_value : ℚ
  deriving DecidableEq

/-- Row of the `teacher_courses` junction table (`class TeacherCourse`). -/
structure TeacherCourse where
  id : Nat
  teacher_id : Nat
  course_id : Nat
  deriving DecidableEq

/-- The whole database state: one list of rows per table. -/
structure DB where
  users : List User
  courses : List Course
  enrollments : List Enrollment
  grades : List Grade
  teacher_courses : List TeacherCourse
  deriving DecidableEq

/-- The Flask server-side `session` object: the keys `login` sets. -/
structure Session where
  logged_in : Bool
  user_id : Option Nat
  username : Option String
  role : Option String
  deriving DecidableEq

/-- `Course.get_enrollment_count`: number of `Enrollment` rows whose
`course_id` references the course (the `course.enrollments` relationship). -/
def get_enrollment_count (db : DB) (course_id : Nat) : Nat :=
  (db.enrollments.filter (fun e => e.course_id == course_id)).length

/-- `Course.is_full`: `get_enrollment_count() >= capacity`. -/
def is_full (db : DB) (c : Course) : Bool :=
  (get_enrollment_count db c.id : Int) ≥ c.capacity

/-- Next autoincrement primary key for a list of row ids. -/
def nextId (ids : List Nat) : Nat :=
  ids.foldr max 0 + 1

/-- Fresh primary key for a new `Enrollment` row. -/
def freshEnrollmentId (db : DB) : Nat :=
  nextId (db.enrollments.map Enrollment.id)

/-- Fresh primary key for a new `Grade` row. -/
def freshGradeId (db : DB) : Nat :=
  nextId (db.grades.map Grade.id)

/-- Outcome of the `student_enroll` route, one constructor per distinct
flash/abort path. -/
inductive EnrollOutcome where
  | courseNotFound404
  | alreadyEnrolled
  | courseFull
  | enrolled
  deriving DecidableEq

/-- The `student_enroll` route handler (`/student/enroll/<course_id>`):
404 if the course id does not exist, then the already-enrolled check,
then the capacity check, then insertion of the new `Enrollment` row. -/
def student_enroll (db : DB) (user_id course_id : Nat) :
    EnrollOutcome × DB :=
  match db.courses.find? (fun c => c.id == course_id) with
  | none => (.courseNotFound404, db)
  | some course =>
    match db.enrollments.find?
        (fun e => e.user_id == user_id && e.course_id == course_id) with
    | some _ => (.alreadyEnrolled, db)
    | none =>
      if is_full db course then
        (.courseFull, db)
      else
        (.enrolled,
          { db with enrollments :=
              db.enrollments ++
                [⟨freshEnrollmentId db, user_id, course_id⟩] })

/-- Outcome of the `student_drop` route. -/
inductive DropOutcome where
  | notFound
  | dropped
  deriving DecidableEq

/-- The `student_drop` route handler (`/student/drop/<course_id>`):
looks up the enrollment by `(user_id, course_id)`; if present it is
deleted and its `Grade` is cascade-deleted (the `cascade='all,
delete-orphan'` relationship on `Enrollment.grade`), otherwise the
handler flashes `Enrollment not found.`. -/
def student_drop (db : DB) (user_id course_id : Nat) :
    DropOutcome × DB :=
  match db.enrollments.find?
      (fun e => e.user_id == user_id && e.course_id == course_id) with
  | none => (.notFound, db)
  | some e =>
    (.dropped,
      { db with
          enrollments := db.enrollments.filter (fun e2 => e2.id != e.id),
          grades := db.grades.filter (fun g => g.enrollment_id != e.id) })

/-- Splits a character list at the first dot, if any. -/
def splitDot : List Char → List Char × Option (List Char)
  | [] => ([], none)
  | c :: rest =>
    if c = '.' then ([], some rest)
    else
      let (a, b) := splitDot rest
      (c :: a, b)

/-- Whether `cs` is a nonempty run of decimal digits. -/
def isDigitRun (cs : List Char) : Bool :=
  !cs.isEmpty && cs.all Char.isDigit

/-- Value of a run of decimal digits. -/
def digitsToNat (cs : List Char) : Nat :=
  cs.foldl (fun acc c => acc * 10 + (c.toNat - 48)) 0

/-- Modelled from the spec: Python's builtin `float(s)` conversion on a
string, restricted to plain decimal literals with an optional sign; the
builtin itself is outside the repository.  Returns `none` where `float`
raises `ValueError`; grade values are exact rationals here. -/
def pyFloatOfString (s : String) : Option ℚ :=
  let (neg, cs) :=
    match s.data with
    | '-' :: rest => (true, rest)
    | '+' :: rest => (false, rest)
    | cs => (false, cs)
  match splitDot cs with
  | (intPart, none) =>
    if isDigitRun intPart then
      let n : Int := digitsToNat intPart
      some (Rat.divInt (if neg then -n else n) 1)
    else none
  | (intPart, some fracPart) =>
    if isDigitRun intPart && isDigitRun fracPart then
      let den : Nat := 10 ^ fracPart.length
      let n : Int := digitsToNat intPart * den + digitsToNat fracPart
      some (Rat.divInt (if neg then -n else n) den)
    else none

/-- `float(request.form.get('grade', 0))`: when the `grade` form field
is absent the default `0` is converted, giving `0.0`; otherwise the
field's string is converted, raising (`none`) on a malformed string. -/
def getGradeValue (gradeField : Option String) : Option ℚ :=
  match gradeField with
  | none => some 0
  | some s => pyFloatOfString s

/-- Outcome of the `teacher_edit_grade` route, one constructor per
distinct flash/abort path. -/
inductive GradeOutcome where
  | enrollmentNotFound404
  | forbidden
  | invalidRange
  | invalidValue
  | updated
  deriving DecidableEq

/-- The `teacher_edit_grade` route handler (`/teacher/grade/<enrollment_id>`):
404 on a missing enrollment, then the `TeacherCourse` authorization
check, then `float` conversion of the form field, then the 0..100 range
check, then upsert of the `Grade` row (in-place update when
`enrollment.grade` exists, insert otherwise). -/
def teacher_edit_grade (db : DB) (teacher_id enrollment_id : Nat)
    (gradeField : Option String) : GradeOutcome × DB :=
  match db.enrollments.find? (fun e => e.id == enrollment_id) with
  | none => (.enrollmentNotFound404, db)
  | some enrollment =>
    match db.teacher_courses.find?
        (fun tc => tc.teacher_id == teacher_id &&
          tc.course_id == enrollment.course_id) with
    | none => (.forbidden, db)
    | some _ =>
      match getGradeValue gradeField with
      | none => (.invalidValue, db)
      | some grade_value =>
        if grade_value < 0 || grade_value > 100 then
          (.invalidRange, db)
        else
          match db.grades.find?
              (fun g => g.enrollment_id == enrollment.id) with
          | some g =>
            (.updated,
              { db with grades :=
                  db.grades.map (fun g2 =>
                    if g2.id = g.id then
                      { g2 with grade_value := grade_value }
                    else g2) })
          | none =>
            (.updated,
              { db with grades :=
                  db.grades ++
                    [⟨freshGradeId db, enrollment.id, grade_value⟩] })

/-- Modelled from the spec: Python's builtin `str.strip()` (the builtin
itself is outside the repository): removes leading and trailing
whitespace. -/
def pyStrip (s : String) : String :=
  ⟨((s.data.dropWhile Char.isWhitespace).reverse.dropWhile
      Char.isWhitespace).reverse⟩

/-- Outcome of a POST to the `login` route. -/
inductive LoginOutcome where
  | missingFields
  | invalidCredentials
  | success
  deriving DecidableEq

/-- The `login` route handler (POST branch): strips the form fields,
rejects empty ones, looks the user up by username, and checks the
password with `check_password_hash` (modelled as the abstract predicate
`check`); a missing user and a failed hash check both fall to the same
`Invalid username or password.` branch with the session untouched. -/
def login (db : DB) (sess : Session) (check : String → String → Bool)
    (usernameField passwordField : String) : LoginOutcome × Session :=
  let username := pyStrip usernameField
  let password := pyStrip passwordField
  if username = "" || password = "" then
    (.missingFields, sess)
  else
    match db.users.find? (fun u => u.username == username) with
    | none => (.invalidCredentials, sess)
    | some user =>
      if check user.password_hash password then
        (.success,
          { logged_in := true, user_id := some user.id,
            username := some user.username, role := some user.role })
      else
        (.invalidCredentials, sess)

/-- One ledger mutation, for stating invariants preserved by every
operation. -/
inductive Op where
  | enroll (user_id course_id : Nat)
  | drop (user_id course_id : Nat)
  | editGrade (teacher_id enrollment_id : Nat) (gradeField : Option String)
  deriving DecidableEq

/-- State reached after one operation (outcome discarded). -/
def applyOp (db : DB) : Op → DB
  | .enroll u c => (student_enroll db u c).2
  | .drop u c => (student_drop db u c).2
  | .editGrade t e f => (teacher_edit_grade db t e f).2

/-- State reached after a sequence of operations. -/
def runOps (db : DB) (ops : List Op) : DB :=
  ops.foldl applyOp db

/-- All courses respect their capacity:
`enrollmentCount(C) <= capacity(C)`. -/
def capInvariant (db : DB) : Prop :=
  ∀ c ∈ db.courses, (get_enrollment_count db c.id : Int) ≤ c.capacity

instance : DecidablePred capInvariant := fun db =>
  List.decidableBAll _ db.courses

/-- Primary-key uniqueness of the `courses` table. -/
def coursesPK (db : DB) : Prop :=
  (db.courses.map Course.id).Nodup

instance : DecidablePred coursesPK := fun _ => List.nodupDecidable _

/-- The `unique_enrollment` constraint: the `(user_id, course_id)` pair
is unique across `enrollments` rows. -/
def pairUnique (db : DB) : Prop :=
  (db.enrollments.map (fun e => (e.user_id, e.course_id))).Nodup

instance : DecidablePred pairUnique := fun _ => List.nodupDecidable _

/-- The unique constraint on `grades.enrollment_id`: at most one `Grade`
row per enrollment. -/
def gradeUnique (db : DB) : Prop :=
  (db.grades.map Grade.enrollment_id).Nodup

instance : DecidablePred gradeUnique := fun _ => List.nodupDecidable _

/-- Foreign-key integrity of `grades.enrollment_id`. -/
def gradesFK (db : DB) : Prop :=
  ∀ g ∈ db.grades, ∃ e ∈ db.enrollments, g.enrollment_id = e.id

instance : DecidablePred gradesFK := fun db =>
  List.decidableBAll _ db.grades

/-- The sample database built by `init_db` in `app.py`: one admin, two
students, one teacher, three courses, two teacher assignments, three
enrollments and their grades (85.5, 92.0, 78.5).  Password hash digests
are opaque strings produced by `generate_password_hash`. -/
def sampleDB : DB :=
  { users :=
      [⟨1, "admin", "hash-admin", "admin"⟩,
       ⟨2, "student1", "hash-student1", "student"⟩,
       ⟨3, "student2", "hash-student2", "student"⟩,
       ⟨4, "teacher1", "hash-teacher1", "teacher"⟩],
    courses :=
      [⟨1, "Introduction to Computer Science", "CS", 30⟩,
       ⟨2, "Data Structures", "CS", 25⟩,
       ⟨3, "Web Development", "CS", 20⟩],
    enrollments := [⟨1, 2, 1⟩, ⟨2, 2, 2⟩, ⟨3, 3, 1⟩],
    grades := [⟨1, 1, 171/2⟩, ⟨2, 2, 92⟩, ⟨3, 3, 157/2⟩],
    teacher_courses := [⟨1, 4, 1⟩, ⟨2, 4, 2⟩] }

/-- A one-seat course already at capacity, for exercising the
course-full paths. -/
def tinyDB : DB :=
  { users :=
      [⟨1, "student1", "hash1", "student"⟩,
       ⟨2, "student2", "hash2", "student"⟩],
    courses := [⟨1, "Seminar", "CS", 1⟩],
    enrollments := [⟨1, 1, 1⟩],
    grades := [],
    teacher_courses := [] }

/-! ### Helper lemmas -/

theorem le_foldr_max {l : List Nat} {x : Nat} (h : x ∈ l) :
    x ≤ l.foldr max 0 := by
  induction l with
  | nil => cases h
  | cons a t ih =>
    rcases List.mem_cons.mp h with rfl | h2
    · exact Nat.le_max_left _ _
    · exact Nat.le_trans (ih h2) (Nat.le_max_right _ _)

theorem mem_lt_nextId {l : List Nat} {x : Nat} (h : x ∈ l) : x < nextId l :=
  Nat.lt_succ_of_le (le_foldr_max h)

/-- If all elements satisfying `p` share the same key and the keys of
`l` are distinct, the filter keeps at most one element. -/
theorem length_filter_key_le_one {α β : Type} {f : α → β} {l : List α}
    (h : (l.map f).Nodup) {p : α → Bool}
    (hp : ∀ a b, p a → p b → f a = f b) :
    (l.filter p).length ≤ 1 := by
  induction l with
  | nil => simp
  | cons a t ih =>
    simp only [List.map_cons, List.nodup_cons] at h
    by_cases hpa : p a
    · have ht : t.filter p = [] := by
        rw [List.filter_eq_nil_iff]
        intro x hx hpx
        exact h.1 (hp x a hpx hpa ▸ List.mem_map_of_mem f hx)
      rw [List.filter_cons, if_pos hpa, ht]
      exact Nat.le_refl 1
    · rw [List.filter_cons, if_neg hpa]
      exact ih h.2

/-- Under the same hypotheses, a member satisfying `p` is the whole
filter. -/
theorem filter_key_eq_singleton {α β : Type} {f : α → β} {l : List α}
    (h : (l.map f).Nodup) {p : α → Bool}
    (hp : ∀ a b, p a → p b → f a = f b)
    {x : α} (hx : x ∈ l) (hpx : p x) :
    l.filter p = [x] := by
  have hlen := length_filter_key_le_one h hp
  have hmem : x ∈ l.filter p := List.mem_filter.mpr ⟨hx, hpx⟩
  match hfp : l.filter p with
  | [] => rw [hfp] at hmem; cases hmem
  | [y] =>
    rw [hfp] at hmem
    obtain rfl := List.eq_of_mem_singleton hmem
    rfl
  | y :: z :: rest => rw [hfp] at hlen; simp at hlen

theorem student_enroll_courses (db : DB) (u c : Nat) :
    (student_enroll db u c).2.courses = db.courses := by
  unfold student_enroll
  split
  · rfl
  · split
    · rfl
    · split <;> rfl

theorem student_enroll_grades (db : DB) (u c : Nat) :
    (student_enroll db u c).2.grades = db.grades := by
  unfold student_enroll
  split
  · rfl
  · split
    · rfl
    · split <;> rfl

theorem student_drop_courses (db : DB) (u c : Nat) :
    (student_drop db u c).2.courses = db.courses := by
  unfold student_drop
  split <;> rfl

theorem teacher_edit_grade_enrollments (db : DB) (t eid : Nat)
    (f : Option String) :
    (teacher_edit_grade db t eid f).2.enrollments = db.enrollments := by
  unfold teacher_edit_grade
  split
  · rfl
  · split
    · rfl
    · split
      · rfl
      · split
        · rfl
        · split <;> rfl

theorem teacher_edit_grade_courses (db : DB) (t eid : Nat)
    (f : Option String) :
    (teacher_edit_grade db t eid f).2.courses = db.courses := by
  unfold teacher_edit_grade
  split
  · rfl
  · split
    · rfl
    · split
      · rfl
      · split
        · rfl
        · split <;> rfl

theorem teacher_edit_grade_teacher_courses (db : DB) (t eid : Nat)
    (f : Option String) :
    (teacher_edit_grade db t eid f).2.teacher_courses =
      db.teacher_courses := by
  unfold teacher_edit_grade
  split
  · rfl
  · split
    · rfl
    · split
      · rfl
      · split
        · rfl
        · split <;> rfl

/-- `teacher_edit_grade` preserves the unique constraint on
`grades.enrollment_id`. -/
theorem gradeUnique_teacher_edit_grade (db : DB) (t eid : Nat)
    (f : Option String) (hg : gradeUnique db) :
    gradeUnique (teacher_edit_grade db t eid f).2 := by
  rcases he : db.enrollments.find? (fun e => e.id == eid) with _ | enrollment
  · simpa [teacher_edit_grade, he] using hg
  · rcases htc : db.teacher_courses.find?
        (fun tc => tc.teacher_id == t &&
          tc.course_id == enrollment.course_id) with _ | tc
    · simpa [teacher_edit_grade, he, htc] using hg
    · rcases hv : getGradeValue f with _ | v
      · simpa [teacher_edit_grade, he, htc, hv] using hg
      · by_cases hr : (decide (v < 0) || decide (v > 100)) = true
        · simpa [teacher_edit_grade, he, htc, hv, hr] using hg
        · rw [Bool.not_eq_true] at hr
          rcases hgf : db.grades.find?
              (fun g => g.enrollment_id == enrollment.id) with _ | g
          · have hres : (teacher_edit_grade db t eid f).2 =
                { db with grades := db.grades ++
                    [⟨freshGradeId db, enrollment.id, v⟩] } := by
              simp [teacher_edit_grade, he, htc, hv, hr, hgf]
            rw [gradeUnique, hres]
            simp only [List.map_append, List.map_cons, List.map_nil]
            refine List.Nodup.append hg (List.nodup_singleton _) ?_
            rw [List.disjoint_singleton]
            intro hmem
            obtain ⟨g2, hg2, hg2id⟩ := List.mem_map.mp hmem
            have := List.find?_eq_none.mp hgf g2 hg2
            simp [hg2id] at this
          · have hres : (teacher_edit_grade db t eid f).2 =
                { db with grades := db.grades.map (fun g2 =>
                    if g2.id = g.id then { g2 with grade_value := v }
                    else g2) } := by
              simp [teacher_edit_grade, he, htc, hv, hr, hgf]
            rw [gradeUnique, hres]
            simp only [List.map_map]
            have hcomp : (Grade.enrollment_id ∘ (fun g2 : Grade =>
                if g2.id = g.id then { g2 with grade_value := v }
                else g2)) = Grade.enrollment_id := by
              funext g2
              simp only [Function.comp]
              split <;> rfl
            rw [hcomp]
            exact hg

/-- On an authorized edit with an in-range parsed value,
`teacher_edit_grade` succeeds, keeps the grade-per-enrollment unique
constraint, leaves the other tables unchanged, and leaves exactly one
`Grade` row for the enrollment, holding the new value. -/
theorem teacher_edit_grade_upsert (db : DB) (t eid : Nat)
    (f : Option String) (v : ℚ) (enrollment : Enrollment)
    (he : db.enrollments.find? (fun e => e.id == eid) = some enrollment)
    (htc : (db.teacher_courses.find?
      (fun tc => tc.teacher_id == t &&
        tc.course_id == enrollment.course_id)).isSome)
    (hv : getGradeValue f = some v)
    (hrange : ¬(v < 0 ∨ v > 100))
    (hg : gradeUnique db) :
    (teacher_edit_grade db t eid f).1 = .updated ∧
    gradeUnique (teacher_edit_grade db t eid f).2 ∧
    ((teacher_edit_grade db t eid f).2.grades.filter
        (fun g => g.enrollment_id == enrollment.id)).map Grade.grade_value
      = [v] := by
  obtain ⟨tc, htc2⟩ := Option.isSome_iff_exists.mp htc
  have h1 : ¬(v < 0) := fun h => hrange (Or.inl h)
  have h2 : ¬(v > 100) := fun h => hrange (Or.inr h)
  have hcond : (decide (v < 0) || decide (v > 100)) = false := by
    simp [h1, h2]
  refine ⟨?_, gradeUnique_teacher_edit_grade db t eid f hg, ?_⟩
  · rcases hgf : db.grades.find?
        (fun g => g.enrollment_id == enrollment.id) with _ | g <;>
      simp [teacher_edit_grade, he, htc2, hv, hcond, hgf]
  · have hp : ∀ a b : Grade, (a.enrollment_id == enrollment.id) = true →
        (b.enrollment_id == enrollment.id) = true →
        a.enrollment_id = b.enrollment_id := by
      intro a b ha hb
      simp only [beq_iff_eq] at ha hb
      rw [ha, hb]
    rcases hgf : db.grades.find?
        (fun g => g.enrollment_id == enrollment.id) with _ | g
    · have hres : (teacher_edit_grade db t eid f).2 =
          { db with grades := db.grades ++
              [⟨freshGradeId db, enrollment.id, v⟩] } := by
        simp [teacher_edit_grade, he, htc2, hv, hcond, hgf]
      rw [hres]
      have hnil : db.grades.filter
          (fun g => g.enrollment_id == enrollment.id) = [] := by
        rw [List.filter_eq_nil_iff]
        intro g2 hg2
        simpa using List.find?_eq_none.mp hgf g2 hg2
      simp [List.filter_append, hnil]
    · have hres : (teacher_edit_grade db t eid f).2 =
          { db with grades := db.grades.map (fun g2 =>
              if g2.id = g.id then { g2 with grade_value := v }
              else g2) } := by
        simp [teacher_edit_grade, he, htc2, hv, hcond, hgf]
      rw [hres]
      have hmemg : g ∈ db.grades := List.mem_of_find?_eq_some hgf
      have hpg := List.find?_some hgf
      have hsingle : db.grades.filter
          (fun g2 => g2.enrollment_id == enrollment.id) = [g] :=
        filter_key_eq_singleton hg hp hmemg hpg
      have hpeq : ((fun g2 : Grade => g2.enrollment_id == enrollment.id) ∘
          (fun g2 : Grade => if g2.id = g.id then
            { g2 with grade_value := v } else g2)) =
          (fun g2 : Grade => g2.enrollment_id == enrollment.id) := by
        funext g2
        simp only [Function.comp]
        split <;> rfl
      rw [List.filter_map, hpeq, hsingle]
      simp

/-- No operation touches the `courses` table. -/
theorem courses_applyOp (db : DB) (op : Op) :
    (applyOp db op).courses = db.courses := by
  cases op with
  | enroll u c => exact student_enroll_courses db u c
  | drop u c => exact student_drop_courses db u c
  | editGrade t e f => exact teacher_edit_grade_courses db t e f

/-- The capacity invariant only depends on the `courses` and
`enrollments` tables. -/
theorem capInvariant_of_fields {db db2 : DB} (hc : db2.courses = db.courses)
    (he : db2.enrollments = db.enrollments) (h : capInvariant db) :
    capInvariant db2 := by
  intro c hcmem
  rw [hc] at hcmem
  have h2 := h c hcmem
  unfold get_enrollment_count at h2 ⊢
  rw [he]
  exact h2

/-- `student_enroll` preserves the capacity invariant: the insert
happens only below capacity. -/
theorem capInvariant_enroll (db : DB) (u c : Nat) (hpk : coursesPK db)
    (hinv : capInvariant db) : capInvariant (student_enroll db u c).2 := by
  rcases hc : db.courses.find? (fun x => x.id == c) with _ | course
  · have hdb : (student_enroll db u c).2 = db := by
      simp [student_enroll, hc]
    rw [hdb]
    exact hinv
  · rcases hee : db.enrollments.find?
        (fun e => e.user_id == u && e.course_id == c) with _ | e0
    · by_cases hful : is_full db course = true
      · have hdb : (student_enroll db u c).2 = db := by
          simp [student_enroll, hc, hee, hful]
        rw [hdb]
        exact hinv
      · rw [Bool.not_eq_true] at hful
        have hdb : (student_enroll db u c).2 =
            { db with enrollments :=
                db.enrollments ++ [⟨freshEnrollmentId db, u, c⟩] } := by
          simp [student_enroll, hc, hee, hful]
        rw [hdb]
        intro c2 hc2
        have hcourseid : course.id = c := by
          simpa using List.find?_some hc
        have hcmem : course ∈ db.courses := List.mem_of_find?_eq_some hc
        by_cases hcid : c2.id = c
        · have hc2eq : c2 = course :=
            List.inj_on_of_nodup_map hpk hc2 hcmem (by rw [hcid, hcourseid])
          subst hc2eq
          have hcount : get_enrollment_count
              { db with enrollments :=
                  db.enrollments ++ [⟨freshEnrollmentId db, u, c⟩] } c2.id =
              get_enrollment_count db c2.id + 1 := by
            unfold get_enrollment_count
            rw [List.filter_append]
            simp [hcid]
          rw [hcount]
          have hnf : ¬((get_enrollment_count db c2.id : Int) ≥
              c2.capacity) := by
            simpa [is_full] using hful
          push_cast at hnf ⊢
          omega
        · have hcount : get_enrollment_count
              { db with enrollments :=
                  db.enrollments ++ [⟨freshEnrollmentId db, u, c⟩] } c2.id =
              get_enrollment_count db c2.id := by
            unfold get_enrollment_count
            rw [List.filter_append]
            have hpred : ((⟨freshEnrollmentId db, u, c⟩ :
                Enrollment).course_id == c2.id) = false := by
              simp only [beq_eq_false_iff_ne]
              exact fun h2 => hcid h2.symm
            simp [hpred]
          rw [hcount]
          exact hinv c2 hc2
    · have hdb : (student_enroll db u c).2 = db := by
        simp [student_enroll, hc, hee]
      rw [hdb]
      exact hinv

/-- `student_drop` preserves the capacity invariant: counts only
decrease. -/
theorem capInvariant_drop (db : DB) (u c : Nat)
    (hinv : capInvariant db) : capInvariant (student_drop db u c).2 := by
  rcases hee : db.enrollments.find?
      (fun e => e.user_id == u && e.course_id == c) with _ | e
  · have hdb : (student_drop db u c).2 = db := by
      simp [student_drop, hee]
    rw [hdb]
    exact hinv
  · have hdb : (student_drop db u c).2 =
        { db with
            enrollments := db.enrollments.filter (fun e2 => e2.id != e.id),
            grades := db.grades.filter
              (fun g => g.enrollment_id != e.id) } := by
      simp [student_drop, hee]
    rw [hdb]
    intro c2 hc2
    have hle : ((db.enrollments.filter (fun e2 => e2.id != e.id)).filter
        (fun e2 => e2.course_id == c2.id)).length ≤
        (db.enrollments.filter (fun e2 => e2.course_id == c2.id)).length :=
      List.Sublist.length_le
        (List.Sublist.filter _ (List.filter_sublist _))
    have h2 := hinv c2 hc2
    unfold get_enrollment_count at h2 ⊢
    calc ((((db.enrollments.filter (fun e2 => e2.id != e.id)).filter
        (fun e2 => e2.course_id == c2.id)).length : Int)) ≤
        ((db.enrollments.filter (fun e2 => e2.course_id == c2.id)).length :
          Int) := by exact_mod_cast hle
      _ ≤ c2.capacity := h2

theorem find?_append_of_none {α : Type} {p : α → Bool} {l1 l2 : List α}
    (h : l1.find? p = none) : (l1 ++ l2).find? p = l2.find? p := by
  induction l1 with
  | nil => simp
  | cons a t ih =>
    by_cases hpa : p a
    · rw [List.find?_cons_of_pos _ hpa] at h
      exact absurd h (by simp)
    · rw [List.find?_cons_of_neg _ hpa] at h
      rw [List.cons_append, List.find?_cons_of_neg _ hpa]
      exact ih h

/-- `student_enroll` preserves the `(user_id, course_id)` unique
constraint: the insert happens only when the pair is absent. -/
theorem pairUnique_enroll (db : DB) (u c : Nat) (hpu : pairUnique db) :
    pairUnique (student_enroll db u c).2 := by
  rcases hc : db.courses.find? (fun x => x.id == c) with _ | course
  · have hdb : (student_enroll db u c).2 = db := by
      simp [student_enroll, hc]
    rw [hdb]
    exact hpu
  · rcases hee : db.enrollments.find?
        (fun e => e.user_id == u && e.course_id == c) with _ | e0
    · by_cases hful : is_full db course = true
      · have hdb : (student_enroll db u c).2 = db := by
          simp [student_enroll, hc, hee, hful]
        rw [hdb]
        exact hpu
      · rw [Bool.not_eq_true] at hful
        have hdb : (student_enroll db u c).2 =
            { db with enrollments :=
                db.enrollments ++ [⟨freshEnrollmentId db, u, c⟩] } := by
          simp [student_enroll, hc, hee, hful]
        rw [pairUnique, hdb]
        simp only [List.map_append, List.map_cons, List.map_nil]
        refine List.Nodup.append hpu (List.nodup_singleton _) ?_
        rw [List.disjoint_singleton]
        intro hmem
        obtain ⟨e2, he2, he2k⟩ := List.mem_map.mp hmem
        have hne := List.find?_eq_none.mp hee e2 he2
        have hu2 : e2.user_id = u := congrArg Prod.fst he2k
        have hc2 : e2.course_id = c := congrArg Prod.snd he2k
        simp [hu2, hc2] at hne
    · have hdb : (student_enroll db u c).2 = db := by
        simp [student_enroll, hc, hee]
      rw [hdb]
      exact hpu

/-- Every operation preserves the `(user_id, course_id)` unique
constraint. -/
theorem pairUnique_applyOp (db : DB) (op : Op) (hpu : pairUnique db) :
    pairUnique (applyOp db op) := by
  cases op with
  | enroll u c => exact pairUnique_enroll db u c hpu
  | drop u c =>
    rw [pairUnique, applyOp]
    unfold student_drop
    split
    · exact hpu
    · exact List.Nodup.sublist
        ((List.filter_sublist _).map _) hpu
  | editGrade t e f =>
    rw [pairUnique, applyOp, teacher_edit_grade_enrollments]
    exact hpu

/-- Inversion of a successful enroll: the course was found, the pair
was absent, the course was not full, and exactly the new row was
appended. -/
theorem student_enroll_enrolled_inv (db : DB) (u c : Nat)
    (h : (student_enroll db u c).1 = .enrolled) :
    ∃ course, db.courses.find? (fun x => x.id == c) = some course ∧
      db.enrollments.find?
        (fun e => e.user_id == u && e.course_id == c) = none ∧
      is_full db course = false ∧
      (student_enroll db u c).2 =
        { db with enrollments :=
            db.enrollments ++ [⟨freshEnrollmentId db, u, c⟩] } := by
  rcases hc : db.courses.find? (fun x => x.id == c) with _ | course
  · simp [student_enroll, hc] at h
  · rcases hee : db.enrollments.find?
        (fun e => e.user_id == u && e.course_id == c) with _ | e0
    · by_cases hful : is_full db course = true
      · simp [student_enroll, hc, hee, hful] at h
      · rw [Bool.not_eq_true] at hful
        exact ⟨course, hc, hee, hful, by simp [student_enroll, hc, hee, hful]⟩
    · simp [student_enroll, hc, hee] at h

/-- `student_enroll` only reads the `courses` and `enrollments` tables:
two databases agreeing there produce the same outcome and the same
`enrollments` table. -/
theorem student_enroll_congr (db db2 : DB) (u c : Nat)
    (hc : db2.courses = db.courses) (he : db2.enrollments = db.enrollments) :
    (student_enroll db2 u c).1 = (student_enroll db u c).1 ∧
    (student_enroll db2 u c).2.enrollments =
      (student_enroll db u c).2.enrollments := by
  have hfull : ∀ course, is_full db2 course = is_full db course := by
    intro course
    unfold is_full get_enrollment_count
    rw [he]
  have hfresh : freshEnrollmentId db2 = freshEnrollmentId db := by
    unfold freshEnrollmentId nextId
    rw [he]
  rcases hcf : db.courses.find? (fun x => x.id == c) with _ | course
  · have hcf2 : db2.courses.find? (fun x => x.id == c) = none := by
      rw [hc]
      exact hcf
    simp [student_enroll, hcf, hcf2, he]
  · have hcf2 : db2.courses.find? (fun x => x.id == c) = some course := by
      rw [hc]
      exact hcf
    rcases hee : db.enrollments.find?
        (fun e => e.user_id == u && e.course_id == c) with _ | e0
    · have hee2 : db2.enrollments.find?
          (fun e => e.user_id == u && e.course_id == c) = none := by
        rw [he]
        exact hee
      by_cases hful : is_full db course = true
      · have hful2 : is_full db2 course = true := by
          rw [hfull]
          exact hful
        simp [student_enroll, hcf, hcf2, hee, hee2, hful, hful2, he]
      · rw [Bool.not_eq_true] at hful
        have hful2 : is_full db2 course = false := by
          rw [hfull]
          exact hful
        simp [student_enroll, hcf, hcf2, hee, hee2, hful, hful2, he, hfresh]
    · have hee2 : db2.enrollments.find?
          (fun e => e.user_id == u && e.course_id == c) = some e0 := by
        rw [he]
        exact hee
      simp [student_enroll, hcf, hcf2, hee, hee2, he]

/-- Dropping right after a successful enroll removes exactly the new
row, restoring the `enrollments` table. -/
theorem drop_after_enroll (db : DB) (u c : Nat)
    (h : (student_enroll db u c).1 = .enrolled) :
    (student_drop (student_enroll db u c).2 u c).1 = .dropped ∧
    (student_drop (student_enroll db u c).2 u c).2.enrollments =
      db.enrollments ∧
    (student_drop (student_enroll db u c).2 u c).2.courses = db.courses := by
  obtain ⟨course, hc, hee, hful, hres⟩ := student_enroll_enrolled_inv db u c h
  rw [hres]
  have hfind : ((db.enrollments ++
      [(⟨freshEnrollmentId db, u, c⟩ : Enrollment)]).find?
      (fun e => e.user_id == u && e.course_id == c)) =
      some ⟨freshEnrollmentId db, u, c⟩ := by
    rw [find?_append_of_none hee]
    simp
  have hfilterE : (db.enrollments ++
      [(⟨freshEnrollmentId db, u, c⟩ : Enrollment)]).filter
      (fun e2 => e2.id != (⟨freshEnrollmentId db, u, c⟩ :
        Enrollment).id) = db.enrollments := by
    rw [List.filter_append]
    have h1 : db.enrollments.filter
        (fun e2 => e2.id != (⟨freshEnrollmentId db, u, c⟩ :
          Enrollment).id) = db.enrollments := by
      rw [List.filter_eq_self]
      intro e2 he2
      simp only [bne_iff_ne, ne_eq]
      exact Nat.ne_of_lt
        (mem_lt_nextId (List.mem_map_of_mem Enrollment.id he2))
    rw [h1]
    simp
  constructor
  · simp [student_drop, hfind]
  constructor
  · simp only [student_drop, hfind]
    exact hfilterE
  · simp [student_drop, hfind]

/-! ### Claim theorems -/

/-- C7: every ledger mutation (`student_enroll`, `student_drop`,
`teacher_edit_grade`) that returns any error outcome leaves the entire
store state exactly as it was before the call — no partial write is
observable. -/
theorem mutation_error_rollback (db : DB) (u c t eid : Nat)
    (f : Option String) :
    ((student_enroll db u c).1 ≠ .enrolled →
      (student_enroll db u c).2 = db) ∧
    ((student_drop db u c).1 ≠ .dropped →
      (student_drop db u c).2 = db) ∧
    ((teacher_edit_grade db t eid f).1 ≠ .updated →
      (teacher_edit_grade db t eid f).2 = db) := by
  refine ⟨?_, ?_, ?_⟩
  · unfold student_enroll
    split
    · intro _; rfl
    · split
      · intro _; rfl
      · split
        · intro _; rfl
        · intro h; exact absurd rfl h
  · unfold student_drop
    split
    · intro _; rfl
    · intro h; exact absurd rfl h
  · unfold teacher_edit_grade
    split
    · intro _; rfl
    · split
      · intro _; rfl
      · split
        · intro _; rfl
        · split
          · intro _; rfl
          · split
            · intro h; exact absurd rfl h
            · intro h; exact absurd rfl h

/-- Witness for C7: a full course, a missing enrollment and an
unauthorized grade edit all leave the one-seat database untouched. -/
theorem mutation_error_rollback_witness :
    (student_enroll tinyDB 2 1).2 = tinyDB ∧
    (student_drop tinyDB 2 1).2 = tinyDB ∧
    (teacher_edit_grade tinyDB 1 1 (some "50")).2 = tinyDB :=
  ⟨(mutation_error_rollback tinyDB 2 1 1 1 (some "50")).1 (by decide),
   (mutation_error_rollback tinyDB 2 1 1 1 (some "50")).2.1 (by decide),
   (mutation_error_rollback tinyDB 2 1 1 1 (some "50")).2.2 (by decide)⟩

/-- C8: a teacher with no `TeacherCourse` row for the enrollment's
course gets Forbidden from `teacher_edit_grade` for every value of the
grade form field, with the database unchanged: the authorization check
precedes and is independent of the range validation and the upsert. -/
theorem setGrade_forbidden_unassigned (db : DB) (t eid : Nat)
    (f : Option String) (enrollment : Enrollment)
    (he : db.enrollments.find? (fun e => e.id == eid) = some enrollment)
    (htc : db.teacher_courses.find?
      (fun tc => tc.teacher_id == t &&
        tc.course_id == enrollment.course_id) = none) :
    teacher_edit_grade db t eid f = (.forbidden, db) := by
  simp only [teacher_edit_grade, he, htc]

/-- Witness for C8: in the sample database teacher 4 is assigned to
courses 1 and 2 only; editing a grade for enrollment 2 by the
unassigned teacher 1 is Forbidden even with a valid grade value. -/
theorem setGrade_forbidden_unassigned_witness :
    teacher_edit_grade sampleDB 1 2 (some "50") = (.forbidden, sampleDB) :=
  setGrade_forbidden_unassigned sampleDB 1 2 (some "50") ⟨2, 2, 2⟩
    (by decide) (by decide)

/-- C9: a login attempt with nonempty stripped fields fails the same
way -- same outcome, session untouched -- whether the username is
unknown or the username exists and the password check fails: the two
cases are indistinguishable to the caller. -/
theorem login_failures_indistinguishable (db : DB) (sess : Session)
    (check : String → String → Bool)
    (usernameField passwordField : String)
    (hu : pyStrip usernameField ≠ "") (hp : pyStrip passwordField ≠ "") :
    (db.users.find? (fun u => u.username == pyStrip usernameField) = none →
      login db sess check usernameField passwordField =
        (.invalidCredentials, sess)) ∧
    (∀ user,
      db.users.find? (fun u => u.username == pyStrip usernameField) =
        some user →
      check user.password_hash (pyStrip passwordField) = false →
      login db sess check usernameField passwordField =
        (.invalidCredentials, sess)) := by
  constructor
  · intro hnone
    simp [login, hnone, hu, hp]
  · intro user hsome hcheck
    simp [login, hsome, hcheck, hu, hp]

/-- Witness for C9: in the sample database, the unknown username
"ghost" and the known username "student1" with a failing password check
produce identical results. -/
theorem login_failures_indistinguishable_witness :
    login sampleDB ⟨false, none, none, none⟩ (fun _ _ => false)
        "ghost" "pw" =
      (.invalidCredentials, ⟨false, none, none, none⟩) ∧
    login sampleDB ⟨false, none, none, none⟩ (fun _ _ => false)
        "student1" "pw" =
      (.invalidCredentials, ⟨false, none, none, none⟩) :=
  ⟨(login_failures_indistinguishable sampleDB ⟨false, none, none, none⟩
      (fun _ _ => false) "ghost" "pw" (by decide) (by decide)).1 (by decide),
   (login_failures_indistinguishable sampleDB ⟨false, none, none, none⟩
      (fun _ _ => false) "student1" "pw" (by decide) (by decide)).2
     ⟨2, "student1", "hash-student1", "student"⟩ (by decide) rfl⟩

/-- C2: with the course id present, `student_enroll` fails with
already-enrolled when the `(user, course)` pair exists; otherwise fails
with course-full when `enrollmentCount >= capacity`; otherwise succeeds,
appending exactly one new `Enrollment` row for the pair, with the
`grades` table unchanged and no `Grade` row referencing the new
enrollment. -/
theorem student_enroll_spec (db : DB) (u c : Nat) (course : Course)
    (hc : db.courses.find? (fun x => x.id == c) = some course)
    (hfk : gradesFK db) :
    ((db.enrollments.find?
        (fun e => e.user_id == u && e.course_id == c)).isSome →
      student_enroll db u c = (.alreadyEnrolled, db)) ∧
    (db.enrollments.find?
        (fun e => e.user_id == u && e.course_id == c) = none →
      is_full db course = true →
      student_enroll db u c = (.courseFull, db)) ∧
    (db.enrollments.find?
        (fun e => e.user_id == u && e.course_id == c) = none →
      is_full db course = false →
      (student_enroll db u c).1 = .enrolled ∧
      (student_enroll db u c).2.enrollments =
        db.enrollments ++ [⟨freshEnrollmentId db, u, c⟩] ∧
      (student_enroll db u c).2.grades = db.grades ∧
      ∀ g ∈ (student_enroll db u c).2.grades,
        g.enrollment_id ≠ freshEnrollmentId db) := by
  refine ⟨?_, ?_, ?_⟩
  · intro hsome
    obtain ⟨e, he⟩ := Option.isSome_iff_exists.mp hsome
    simp [student_enroll, hc, he]
  · intro hnone hfull
    simp [student_enroll, hc, hnone, hfull]
  · intro hnone hnotfull
    refine ⟨?_, ?_, ?_, ?_⟩
    · simp [student_enroll, hc, hnone, hnotfull]
    · simp [student_enroll, hc, hnone, hnotfull]
    · simp [student_enroll, hc, hnone, hnotfull]
    · intro g hg
      rw [student_enroll_grades] at hg
      obtain ⟨e, hemem, heid⟩ := hfk g hg
      rw [heid]
      exact Nat.ne_of_lt
        (mem_lt_nextId (List.mem_map_of_mem Enrollment.id hemem))

/-- Witness for C2: in the sample database student 2 is already in
course 1; the one-seat course is full for student 2; student 3 can
enroll in course 2. -/
theorem student_enroll_spec_witness :
    student_enroll sampleDB 2 1 = (.alreadyEnrolled, sampleDB) ∧
    student_enroll tinyDB 2 1 = (.courseFull, tinyDB) ∧
    (student_enroll sampleDB 3 2).1 = .enrolled :=
  ⟨(student_enroll_spec sampleDB 2 1
      ⟨1, "Introduction to Computer Science", "CS", 30⟩
      (by decide) (by decide)).1 (by decide),
   (student_enroll_spec tinyDB 2 1 ⟨1, "Seminar", "CS", 1⟩
      (by decide) (by decide)).2.1 (by decide) (by decide),
   ((student_enroll_spec sampleDB 3 2 ⟨2, "Data Structures", "CS", 25⟩
      (by decide) (by decide)).2.2 (by decide) (by decide)).1⟩

/-- C6: under the pair-uniqueness constraint, `student_drop` fails with
not-found when no `(user, course)` enrollment exists; otherwise it
deletes that `Enrollment` row and cascade-deletes its `Grade` rows, and
an immediately repeated drop of the same pair yields not-found rather
than a silent success. -/
theorem student_drop_spec (db : DB) (u c : Nat) (hpu : pairUnique db) :
    (db.enrollments.find?
        (fun e => e.user_id == u && e.course_id == c) = none →
      student_drop db u c = (.notFound, db)) ∧
    (∀ e, db.enrollments.find?
        (fun x => x.user_id == u && x.course_id == c) = some e →
      (student_drop db u c).1 = .dropped ∧
      (student_drop db u c).2.enrollments =
        db.enrollments.filter (fun x => x.id != e.id) ∧
      (student_drop db u c).2.enrollments.filter
        (fun x => x.user_id == u && x.course_id == c) = [] ∧
      (student_drop db u c).2.grades.filter
        (fun g => g.enrollment_id == e.id) = [] ∧
      (student_drop (student_drop db u c).2 u c).1 = .notFound) := by
  constructor
  · intro hnone
    simp [student_drop, hnone]
  · intro e he
    have hemem : e ∈ db.enrollments := List.mem_of_find?_eq_some he
    have hpe := List.find?_some he
    have honly : ∀ x ∈ db.enrollments,
        (x.user_id == u && x.course_id == c) = true → x = e := by
      intro x hx hpx
      refine List.inj_on_of_nodup_map hpu hx hemem ?_
      simp only [Bool.and_eq_true, beq_iff_eq] at hpx hpe
      simp [hpx.1, hpx.2, hpe.1, hpe.2]
    have hfilt : (db.enrollments.filter (fun x => x.id != e.id)).filter
        (fun x => x.user_id == u && x.course_id == c) = [] := by
      rw [List.filter_eq_nil_iff]
      intro x hx hpx
      have hx2 := List.mem_filter.mp hx
      have hxe : x = e := honly x hx2.1 hpx
      rw [hxe] at hx2
      simp at hx2
    have hfind2 : (db.enrollments.filter (fun x => x.id != e.id)).find?
        (fun x => x.user_id == u && x.course_id == c) = none := by
      rw [List.find?_eq_none]
      intro x hx hpx
      have hx2 := List.mem_filter.mp hx
      have hxe : x = e := honly x hx2.1 hpx
      rw [hxe] at hx2
      simp at hx2
    have hd2 : (student_drop db u c).2 =
        { db with
            enrollments := db.enrollments.filter (fun x => x.id != e.id),
            grades := db.grades.filter (fun g => g.enrollment_id != e.id) } := by
      simp [student_drop, he]
    refine ⟨by simp [student_drop, he], by rw [hd2], ?_, ?_, ?_⟩
    · rw [hd2]
      exact hfilt
    · rw [hd2]
      rw [List.filter_eq_nil_iff]
      intro g hg hpg
      have hg2 := List.mem_filter.mp hg
      simp only [beq_iff_eq] at hpg
      simp [hpg] at hg2
    · rw [hd2]
      simp [student_drop, hfind2]

/-- Witness for C6: in the sample database student 3 has no enrollment
in course 2, and dropping student 2 from course 1 removes enrollment 1
and its grade, after which a second drop is not-found. -/
theorem student_drop_spec_witness :
    student_drop sampleDB 3 2 = (.notFound, sampleDB) ∧
    ((student_drop sampleDB 2 1).1 = .dropped ∧
      (student_drop sampleDB 2 1).2.grades.filter
        (fun g => g.enrollment_id == 1) = [] ∧
      (student_drop (student_drop sampleDB 2 1).2 2 1).1 = .notFound) := by
  have h := student_drop_spec sampleDB 2 1 (by decide)
  have h2 := h.2 ⟨1, 2, 1⟩ (by decide)
  exact ⟨(student_drop_spec sampleDB 3 2 (by decide)).1 (by decide),
    h2.1, h2.2.2.2.1, h2.2.2.2.2⟩

/-- C4: on an authorized grade edit whose form field parses to `v`,
`teacher_edit_grade` fails with invalid-range exactly when `v < 0` or
`v > 100` (so the boundaries 0 and 100 are accepted), an invalid-range
failure leaves the store unchanged, and otherwise the edit succeeds. -/
theorem setGrade_range_check (db : DB) (t eid : Nat) (f : Option String)
    (v : ℚ) (enrollment : Enrollment)
    (he : db.enrollments.find? (fun e => e.id == eid) = some enrollment)
    (htc : (db.teacher_courses.find?
      (fun tc => tc.teacher_id == t &&
        tc.course_id == enrollment.course_id)).isSome)
    (hv : getGradeValue f = some v) :
    ((teacher_edit_grade db t eid f).1 = .invalidRange ↔
      (v < 0 ∨ v > 100)) ∧
    ((teacher_edit_grade db t eid f).1 = .invalidRange →
      (teacher_edit_grade db t eid f).2 = db) ∧
    ((teacher_edit_grade db t eid f).1 = .updated ↔
      ¬(v < 0 ∨ v > 100)) := by
  obtain ⟨tc, htc2⟩ := Option.isSome_iff_exists.mp htc
  by_cases hr : v < 0 ∨ v > 100
  · have hcond : (decide (v < 0) || decide (v > 100)) = true := by
      rcases hr with h | h <;> simp [h]
    have hres : teacher_edit_grade db t eid f = (.invalidRange, db) := by
      simp [teacher_edit_grade, he, htc2, hv, hcond]
    rw [hres]
    simp [hr]
  · have h1 : ¬(v < 0) := fun h => hr (Or.inl h)
    have h2 : ¬(v > 100) := fun h => hr (Or.inr h)
    have hcond : (decide (v < 0) || decide (v > 100)) = false := by
      simp [h1, h2]
    have hout : (teacher_edit_grade db t eid f).1 = .updated := by
      rcases hgf : db.grades.find?
          (fun g => g.enrollment_id == enrollment.id) with _ | g <;>
        simp [teacher_edit_grade, he, htc2, hv, hcond, hgf]
    refine ⟨⟨fun habs => ?_, fun habs => absurd habs hr⟩,
      fun habs => ?_, ⟨fun _ => hr, fun _ => hout⟩⟩
    · rw [hout] at habs
      exact GradeOutcome.noConfusion habs
    · rw [hout] at habs
      exact GradeOutcome.noConfusion habs

/-- Witness for C4: grading enrollment 1 by its assigned teacher 4
fails for -0.01 and 100.01 (store unchanged), succeeds for 0 and 100. -/
theorem setGrade_range_check_witness :
    (teacher_edit_grade sampleDB 4 1 (some "-0.01")).1 = .invalidRange ∧
    (teacher_edit_grade sampleDB 4 1 (some "-0.01")).2 = sampleDB ∧
    (teacher_edit_grade sampleDB 4 1 (some "100.01")).1 = .invalidRange ∧
    (teacher_edit_grade sampleDB 4 1 (some "0")).1 = .updated ∧
    (teacher_edit_grade sampleDB 4 1 (some "100")).1 = .updated := by
  have hlow := setGrade_range_check sampleDB 4 1 (some "-0.01")
    (Rat.divInt (-1) 100) ⟨1, 2, 1⟩ (by decide) (by decide) (by decide)
  have hhigh := setGrade_range_check sampleDB 4 1 (some "100.01")
    (Rat.divInt 10001 100) ⟨1, 2, 1⟩ (by decide) (by decide) (by decide)
  have hzero := setGrade_range_check sampleDB 4 1 (some "0")
    0 ⟨1, 2, 1⟩ (by decide) (by decide) (by decide)
  have hcent := setGrade_range_check sampleDB 4 1 (some "100")
    100 ⟨1, 2, 1⟩ (by decide) (by decide) (by decide)
  have hlow1 := hlow.1.mpr (by decide)
  exact ⟨hlow1, hlow.2.1 hlow1, hhigh.1.mpr (by decide),
    hzero.2.2.mpr (by decide), hcent.2.2.mpr (by decide)⟩

/-- C5: every operation preserves the at-most-one-grade-per-enrollment
constraint, and two successive successful grade edits on the same
enrollment with different values leave exactly one Grade row holding
the value of the later call. -/
theorem grade_upsert_unique (db : DB) (t eid : Nat) (f1 f2 : Option String)
    (v1 v2 : ℚ) (enrollment : Enrollment) (hg : gradeUnique db) :
    (∀ op, gradeUnique (applyOp db op)) ∧
    (db.enrollments.find? (fun e => e.id == eid) = some enrollment →
      (db.teacher_courses.find? (fun tc => tc.teacher_id == t &&
        tc.course_id == enrollment.course_id)).isSome →
      getGradeValue f1 = some v1 → getGradeValue f2 = some v2 →
      ¬(v1 < 0 ∨ v1 > 100) → ¬(v2 < 0 ∨ v2 > 100) → v1 ≠ v2 →
      (teacher_edit_grade db t eid f1).1 = .updated ∧
      (teacher_edit_grade
        (teacher_edit_grade db t eid f1).2 t eid f2).1 = .updated ∧
      ((teacher_edit_grade
          (teacher_edit_grade db t eid f1).2 t eid f2).2.grades.filter
        (fun g => g.enrollment_id == enrollment.id)).map Grade.grade_value
        = [v2]) := by
  constructor
  · intro op
    cases op with
    | enroll u c =>
      rw [gradeUnique, applyOp, student_enroll_grades]
      exact hg
    | drop u c =>
      rw [gradeUnique, applyOp]
      unfold student_drop
      split
      · exact hg
      · exact List.Nodup.sublist
          ((List.filter_sublist _).map Grade.enrollment_id) hg
    | editGrade t2 e2 f3 => exact gradeUnique_teacher_edit_grade db t2 e2 f3 hg
  · intro he htc hv1 hv2 hr1 hr2 _
    have h1 := teacher_edit_grade_upsert db t eid f1 v1 enrollment
      he htc hv1 hr1 hg
    have he1 : (teacher_edit_grade db t eid f1).2.enrollments.find?
        (fun e => e.id == eid) = some enrollment := by
      rw [teacher_edit_grade_enrollments]
      exact he
    have htc1 : ((teacher_edit_grade db t eid f1).2.teacher_courses.find?
        (fun tc => tc.teacher_id == t &&
          tc.course_id == enrollment.course_id)).isSome := by
      rw [teacher_edit_grade_teacher_courses]
      exact htc
    have h2 := teacher_edit_grade_upsert (teacher_edit_grade db t eid f1).2
      t eid f2 v2 enrollment he1 htc1 hv2 hr2 h1.2.1
    exact ⟨h1.1, h2.1, h2.2.2⟩

/-- Witness for C5: grading enrollment 1 with 50 and then 60 leaves one
grade row holding 60; a drop preserves the unique constraint. -/
theorem grade_upsert_unique_witness :
    gradeUnique (applyOp sampleDB (.drop 2 1)) ∧
    (teacher_edit_grade sampleDB 4 1 (some "50")).1 = .updated ∧
    (teacher_edit_grade
      (teacher_edit_grade sampleDB 4 1 (some "50")).2 4 1
        (some "60")).1 = .updated ∧
    ((teacher_edit_grade
        (teacher_edit_grade sampleDB 4 1 (some "50")).2 4 1
          (some "60")).2.grades.filter
      (fun g => g.enrollment_id == 1)).map Grade.grade_value
      = [Rat.divInt 60 1] := by
  have h := grade_upsert_unique sampleDB 4 1 (some "50") (some "60")
    (Rat.divInt 50 1) (Rat.divInt 60 1) ⟨1, 2, 1⟩ (by decide)
  have h2 := h.2 (by decide) (by decide) (by decide) (by decide)
    (by decide) (by decide) (by decide)
  exact ⟨h.1 (.drop 2 1), h2.1, h2.2.1, h2.2.2⟩

/-- C10: for an authorized teacher and an existing enrollment, a grade
edit with the `grade` form field absent defaults to 0, passes the range
check, and succeeds, leaving exactly one Grade row valued 0 for the
enrollment -- an omitted grade silently records a zero. -/
theorem omitted_grade_field_records_zero (db : DB) (t eid : Nat)
    (enrollment : Enrollment)
    (he : db.enrollments.find? (fun e => e.id == eid) = some enrollment)
    (htc : (db.teacher_courses.find?
      (fun tc => tc.teacher_id == t &&
        tc.course_id == enrollment.course_id)).isSome)
    (hg : gradeUnique db) :
    (teacher_edit_grade db t eid none).1 = .updated ∧
    ((teacher_edit_grade db t eid none).2.grades.filter
        (fun g => g.enrollment_id == enrollment.id)).map Grade.grade_value
      = [0] := by
  have h := teacher_edit_grade_upsert db t eid none 0 enrollment he htc
    rfl (by norm_num) hg
  exact ⟨h.1, h.2.2⟩

/-- Witness for C10: teacher 4 posting the grade form for enrollment 1
without a `grade` field records the grade 0. -/
theorem omitted_grade_field_records_zero_witness :
    (teacher_edit_grade sampleDB 4 1 none).1 = .updated ∧
    ((teacher_edit_grade sampleDB 4 1 none).2.grades.filter
        (fun g => g.enrollment_id == 1)).map Grade.grade_value = [0] :=
  omitted_grade_field_records_zero sampleDB 4 1 ⟨1, 2, 1⟩
    (by decide) (by decide) (by decide)

/-- C1: starting from a state whose courses all satisfy
`enrollmentCount <= capacity` (with unique course primary keys), the
invariant still holds after any sequence of operations: `student_enroll`
refuses to insert when `is_full` already holds, and no other operation
increases a count. -/
theorem enrollment_capacity_invariant (db : DB) (ops : List Op)
    (hpk : coursesPK db) (hinv : capInvariant db) :
    capInvariant (runOps db ops) := by
  induction ops generalizing db with
  | nil => exact hinv
  | cons op rest ih =>
    have hstep : capInvariant (applyOp db op) := by
      cases op with
      | enroll u c => exact capInvariant_enroll db u c hpk hinv
      | drop u c => exact capInvariant_drop db u c hinv
      | editGrade t e f =>
        exact capInvariant_of_fields (teacher_edit_grade_courses db t e f)
          (teacher_edit_grade_enrollments db t e f) hinv
    have hpk2 : coursesPK (applyOp db op) := by
      rw [coursesPK, courses_applyOp]
      exact hpk
    rw [runOps, List.foldl_cons]
    exact ih (applyOp db op) hpk2 hstep

/-- Witness for C1: a concrete mixed sequence of enrolls, drops and a
grade edit on the sample database keeps every course within capacity. -/
theorem enrollment_capacity_invariant_witness :
    capInvariant (runOps sampleDB
      [.enroll 3 2, .drop 2 1, .enroll 2 3, .editGrade 4 1 (some "75"),
       .enroll 2 1, .drop 3 2]) :=
  enrollment_capacity_invariant sampleDB
    [.enroll 3 2, .drop 2 1, .enroll 2 3, .editGrade 4 1 (some "75"),
     .enroll 2 1, .drop 3 2] (by decide) (by decide)

/-- C3: every operation preserves uniqueness of the
`(user_id, course_id)` pair across `Enrollment` rows, and the round
trip enroll, drop, enroll succeeds and leaves exactly one active
`Enrollment` row for the pair. -/
theorem enrollment_pair_unique (db : DB) (u c : Nat) :
    (pairUnique db → ∀ op, pairUnique (applyOp db op)) ∧
    ((student_enroll db u c).1 = .enrolled →
      (student_drop (student_enroll db u c).2 u c).1 = .dropped ∧
      (student_enroll
        (student_drop (student_enroll db u c).2 u c).2 u c).1 = .enrolled ∧
      ((student_enroll
          (student_drop (student_enroll db u c).2 u c).2 u c).2.enrollments.filter
        (fun e => e.user_id == u && e.course_id == c)).length = 1) := by
  constructor
  · intro hpu op
    exact pairUnique_applyOp db op hpu
  · intro h
    obtain ⟨course, hc, hee, hful, hres⟩ := student_enroll_enrolled_inv db u c h
    obtain ⟨hd1, hd2, hd3⟩ := drop_after_enroll db u c h
    have hcongr := student_enroll_congr db
      (student_drop (student_enroll db u c).2 u c).2 u c hd3 hd2
    refine ⟨hd1, ?_, ?_⟩
    · rw [hcongr.1]
      exact h
    · rw [hcongr.2]
      have hfil : db.enrollments.filter
          (fun e => e.user_id == u && e.course_id == c) = [] := by
        rw [List.filter_eq_nil_iff]
        exact fun e he2 => List.find?_eq_none.mp hee e he2
      simp [hres, List.filter_append, hfil]

/-- Witness for C3: student 3 can enroll in course 2, drop it, and
enroll again, ending with exactly one enrollment row for the pair;
operations preserve the unique constraint on the sample database. -/
theorem enrollment_pair_unique_witness :
    pairUnique (applyOp sampleDB (.enroll 3 2)) ∧
    ((student_drop (student_enroll sampleDB 3 2).2 3 2).1 = .dropped ∧
      (student_enroll
        (student_drop (student_enroll sampleDB 3 2).2 3 2).2 3 2).1 =
        .enrolled ∧
      ((student_enroll
          (student_drop (student_enroll sampleDB 3 2).2 3 2).2
            3 2).2.enrollments.filter
        (fun e => e.user_id == 3 && e.course_id == 2)).length = 1) :=
  ⟨(enrollment_pair_unique sampleDB 3 2).1 (by decide) (.enroll 3 2),
   (enrollment_pair_unique sampleDB 3 2).2 (by decide)⟩

end Lab8
